import Mathlib

/-!
Shallow embedding of the SPAAS cell-suppression engine
(`backend/app/primary_suppression.py` and `backend/app/hypercube.py`).

Numeric cell values are modelled as rationals; a missing (NaN) value is
modelled as `none`.  Dictionary lookups that can raise `KeyError`, and the
solver-status dispatch of `solve_secondary_suppressions`, are modelled in the
`Except` monad.  The external MILP backend is modelled as an oracle
(`SolverOutcome`): the embedding fixes everything the Python code does around
the `Solve()` call, and the oracle supplies the reported status together with
the variable assignment when one exists.  The unseeded `np.random` calls of
`_simulate_contributors` are modelled as an explicit stream of draws.
-/

/-- Stable insertion into a `le`-ascending list: a new element is placed after
the elements it ties with, matching the stability of Python's `sorted`. -/
def insertSorted {α : Type} (le : α → α → Bool) (x : α) : List α → List α
  | [] => [x]
  | y :: ys => if le x y && !le y x then x :: y :: ys else y :: insertSorted le x ys

/-- Stable insertion sort; models Python's stable `sorted(..., key=...)`. -/
def stableSort {α : Type} (le : α → α → Bool) (l : List α) : List α :=
  l.foldl (fun acc x => insertSorted le x acc) []

namespace PS

/-- The `ProtectionRules` dataclass of `primary_suppression.py` (lines 16-22). -/
structure ProtectionRules where
  min_frequency : Int
  dominance_n : Nat
  dominance_k : ℚ
  p_percent : ℚ
  deriving DecidableEq

/-- The SDMX confidentiality flags of `ConfidentialityFlags` (lines 25-33). -/
inductive Flag
  | free
  | fewContributors
  | domOne
  | domTwo
  | domGeneral
  | pPercent
  deriving DecidableEq

/-- `SuppressionResult` (lines 36-43); the human-readable reason string and
the cell id/value bookkeeping fields are not modelled. -/
structure SuppressionResult where
  is_confidential : Bool
  flag : Flag
  deriving DecidableEq

/-- `sorted(contributor_values, reverse=True)`. -/
def sortDesc (l : List ℚ) : List ℚ :=
  stableSort (fun a b => decide (b ≤ a)) l

/-- `check_threshold_rule` (lines 61-80): violated when the contributor count
is strictly below `min_frequency`. -/
def check_threshold_rule (rules : ProtectionRules) (contributors : List String) :
    Option SuppressionResult :=
  if (contributors.length : Int) < rules.min_frequency then
    some ⟨true, Flag.fewContributors⟩
  else none

/-- The flag selection inside `check_dominance_rule` (lines 109-118). -/
def domFlagOf (n : Nat) : Flag :=
  if n = 1 then Flag.domOne else if n = 2 then Flag.domTwo else Flag.domGeneral

/-- `check_dominance_rule` (lines 82-126): guard on an empty contributor list
or a zero total, then strict comparison of the top-n share against k. -/
def check_dominance_rule (rules : ProtectionRules) (cell_value : ℚ)
    (contributor_values : List ℚ) : Option SuppressionResult :=
  if contributor_values = [] ∨ cell_value = 0 then none
  else
    let sorted := sortDesc contributor_values
    let top_n_sum := (sorted.take rules.dominance_n).sum
    let dominance_ratio := top_n_sum / cell_value * 100
    if rules.dominance_k < dominance_ratio then some ⟨true, domFlagOf rules.dominance_n⟩
    else none

/-- `check_p_percent_rule` (lines 128-170): needs at least two contributors, a
nonzero total and a positive second-largest value; violated when the relative
error of the estimate `total - largest - sum(others)` is at most p percent. -/
def check_p_percent_rule (rules : ProtectionRules) (cell_value : ℚ)
    (contributor_values : List ℚ) : Option SuppressionResult :=
  if contributor_values = [] ∨ contributor_values.length < 2 ∨ cell_value = 0 then none
  else
    let sorted := sortDesc contributor_values
    let largest := sorted.getD 0 0
    let second_largest := sorted.getD 1 0
    let others_sum := (sorted.drop 2).sum
    let estimated_second := cell_value - largest - others_sum
    if 0 < second_largest then
      if |estimated_second - second_largest| / second_largest * 100 ≤ rules.p_percent then
        some ⟨true, Flag.pPercent⟩
      else none
    else none

/-- The per-cell rule cascade of `apply_primary_suppression` (lines 214-227):
threshold first, then dominance, then p-percent, stopping at the first
violation; at most one verdict is produced. -/
def evaluateCell (rules : ProtectionRules) (contributors : List String)
    (contributor_values : List ℚ) (cell_value : ℚ) : Option SuppressionResult :=
  match check_threshold_rule rules contributors with
  | some r => some r
  | none =>
    match check_dominance_rule rules cell_value contributor_values with
    | some r => some r
    | none => check_p_percent_rule rules cell_value contributor_values

/-- Second-largest contributor value (0 when absent), the quantity named by
spec section 4.1. -/
def secondLargest (vals : List ℚ) : ℚ := (sortDesc vals).getD 1 0

/-- The largest contributor's estimate of the second largest, spec 4.1:
`total - largest - sum(all other known contributors)`. -/
def ppEstimate (total : ℚ) (vals : List ℚ) : ℚ :=
  total - (sortDesc vals).getD 0 0 - ((sortDesc vals).drop 2).sum

/-- Relative estimation error in percent, spec 4.1. -/
def relError (total : ℚ) (vals : List ℚ) : ℚ :=
  |ppEstimate total vals - secondLargest vals| / secondLargest vals * 100

/-- Share of the top `n` contributors in percent, spec 4.1. -/
def domTopShare (n : Nat) (total : ℚ) (vals : List ℚ) : ℚ :=
  ((sortDesc vals).take n).sum / total * 100

/-- One random draw of `_simulate_contributors` (lines 262-291): the sampled
contributor count and the raw Pareto samples (`np.random.pareto(alpha, n) + 1`). -/
structure Draw where
  numContributors : Nat
  rawValues : List ℚ
  deriving DecidableEq

/-- Admissible draws: the contributor count lies in the support of the
distribution chosen at lines 270-275 for this cell value, and each raw Pareto
sample plus one is at least 1. -/
def drawValid (cell_value : ℚ) (d : Draw) : Prop :=
  d.rawValues.length = d.numContributors ∧ (∀ r ∈ d.rawValues, 1 ≤ r) ∧
  (if cell_value < 10 then d.numContributors ∈ ([1, 2, 3] : List Nat)
   else if cell_value < 50 then d.numContributors ∈ ([2, 3, 4, 5] : List Nat)
   else d.numContributors ∈ ([3, 4, 5, 6, 7] : List Nat))

/-- `_simulate_contributors` (lines 262-291) given the random draw: synthetic
contributor ids, and the raw samples normalised to sum to the cell value
(a single contributor receives the full value). -/
def simulate_contributors (cell_value : ℚ) (d : Draw) : List String × List ℚ :=
  let contributors := (List.range d.numContributors).map (fun i => "contributor_" ++ toString i)
  let values :=
    if d.numContributors = 1 then [cell_value]
    else d.rawValues.map (fun r => r / d.rawValues.sum * cell_value)
  (contributors, values)

/-- The row loop of `apply_primary_suppression` (lines 205-245): missing and
zero cells are skipped and consume no draw; every other cell consumes one draw
and runs through the rule cascade.  Returns, per row, whether it was
suppressed and the recorded flag. -/
def evalRows (rules : ProtectionRules) (draws : Nat → Draw) :
    List (Option ℚ) → Nat → List (Bool × Flag)
  | [], _ => []
  | v? :: rest, k =>
    match v? with
    | none => (false, Flag.free) :: evalRows rules draws rest k
    | some v =>
      if v = 0 then (false, Flag.free) :: evalRows rules draws rest k
      else
        let sim := simulate_contributors v (draws k)
        let verdict := evaluateCell rules sim.1 sim.2 v
        (match verdict with
         | some r => (true, r.flag)
         | none => (false, Flag.free)) :: evalRows rules draws rest (k + 1)

/-- Number of rows that consume a draw: present, nonzero values. -/
def eligibleCount (col : List (Option ℚ)) : Nat :=
  col.countP (fun v? => match v? with | some v => decide (v ≠ 0) | none => false)

end PS

namespace HC

/-- The `ProtectionRules` dataclass of `hypercube.py` (lines 48-55). -/
structure ProtectionRules where
  min_frequency : Int
  dominance_n : Nat
  dominance_k : ℚ
  p_percent : ℚ
  safety_range : ℚ
  deriving DecidableEq

/-- A pandas table, restricted to what the engine reads: the row count, the
total column count (used by the statistics), the indices of the numeric
columns in dataframe order (as produced by `select_dtypes` and `get_loc`),
and the cell values, with `none` for NaN. -/
structure Table where
  rows : Nat
  totalCols : Nat
  numericCols : List Nat
  entry : Nat → Nat → Option ℚ

/-- The cell id `cell_i_j`, as the pair `(i, j)`. -/
abbrev Cell := Nat × Nat

/-- `numeric_data.iloc[i, :].dropna().tolist()`. -/
def rowValues (t : Table) (i : Nat) : List ℚ :=
  t.numericCols.filterMap (fun j => t.entry i j)

/-- `numeric_data[col_name].dropna().tolist()`. -/
def colValues (t : Table) (j : Nat) : List ℚ :=
  (List.range t.rows).filterMap (fun i => t.entry i j)

/-- Membership in the `self.cells` dict built at lines 287-322: exactly the
in-range numeric cells whose value is not NaN. -/
def inCellsB (t : Table) (c : Cell) : Bool :=
  decide (c.1 < t.rows) && t.numericCols.contains c.2 && (t.entry c.1 c.2).isSome

/-- `cost = float(cell_value) if not np.isnan(cell_value) else 1.0`
(line 301; the NaN branch is unreachable because NaN cells were skipped). -/
def cellCost (t : Table) (c : Cell) : ℚ :=
  (t.entry c.1 c.2).getD 1

/-- The frequency rule of `identify_primary_suppressions` (line 120):
`cell_value < min_frequency`. -/
def freqViolationB (rules : ProtectionRules) (v : ℚ) : Bool :=
  decide (v < (rules.min_frequency : ℚ))

/-- One direction (row or column) of `_check_dominance_rule` (lines 160-171
and 179-189): more than one value, positive total, top-n share strictly above
`dominance_k`, and the cell value among the top n. -/
def dominanceOn (rules : ProtectionRules) (v : ℚ) (values : List ℚ) : Bool :=
  if 1 < values.length then
    let total := values.sum
    if 0 < total then
      let sorted := stableSort (fun a b => decide (b ≤ a)) values
      let topn := sorted.take rules.dominance_n
      if rules.dominance_k < topn.sum / total * 100 then decide (v ∈ topn)
      else false
    else false
  else false

/-- `_check_dominance_rule` (lines 139-191): row check first, then column.
The cell's column is numeric whenever the caller iterates it, so the
non-numeric-column early return is not reachable here. -/
def hc_check_dominance_rule (t : Table) (rules : ProtectionRules)
    (i j : Nat) (v : ℚ) : Bool :=
  dominanceOn rules v (rowValues t i) || dominanceOn rules v (colValues t j)

/-- One direction of `_check_p_percent_rule` (lines 222-240 and 243-258): the
estimation window `[total - others - interval, total - others + interval]` is
compared against twice the interval.  The filter compares the position inside
the NaN-dropped value list against a dataframe index, exactly as the source
does. -/
def pPercentOn (rules : ProtectionRules) (v : ℚ) (values : List ℚ) (excl : Nat) : Bool :=
  if 1 < values.length then
    let total := values.sum
    let others := (values.enum.filter (fun p => p.1 ≠ excl)).map (fun p => p.2)
    if others = [] then false
    else
      let interval := v * (rules.p_percent / 100)
      let emin := total - others.sum - interval
      let emax := total - others.sum + interval
      decide (|emax - emin| < 2 * interval)
  else false

/-- `_check_p_percent_rule` (lines 193-260): zero cells are skipped, then the
row-based and column-based estimation checks run in order. -/
def hc_check_p_percent_rule (t : Table) (rules : ProtectionRules)
    (i j : Nat) (v : ℚ) : Bool :=
  if v = 0 then false
  else pPercentOn rules v (rowValues t i) j || pPercentOn rules v (colValues t j) i

/-- The per-cell primary check of `identify_primary_suppressions`
(lines 107-134): NaN cells are skipped; otherwise any of the three rules
marks the cell. -/
def isPrimaryB (t : Table) (rules : ProtectionRules) (c : Cell) : Bool :=
  match t.entry c.1 c.2 with
  | none => false
  | some v =>
    freqViolationB rules v || hc_check_dominance_rule t rules c.1 c.2 v ||
      hc_check_p_percent_rule t rules c.1 c.2 v

/-- The primary-suppression set returned by `identify_primary_suppressions`. -/
def primaryFinset (t : Table) (rules : ProtectionRules) : Finset Cell :=
  (Finset.range t.rows ×ˢ t.numericCols.toFinset).filter (fun c => isPrimaryB t rules c)

/-- `row_cells` (line 327): every numeric column appears, NaN or not. -/
def rowConstraintCells (t : Table) (i : Nat) : List Cell :=
  t.numericCols.map (fun j => (i, j))

/-- `col_cells` (line 346): every row appears, NaN or not. -/
def colConstraintCells (t : Table) (j : Nat) : List Cell :=
  (List.range t.rows).map (fun i => (i, j))

/-- The constraint list built by `build_constraint_graph` (lines 324-362):
one constraint per row, then one per numeric column; NaN cells are listed in
the constraints even though they are missing from `self.cells`. -/
def constraintsList (t : Table) : List (List Cell) :=
  (List.range t.rows).map (fun i => rowConstraintCells t i) ++
    t.numericCols.map (fun j => colConstraintCells t j)

/-- The error outcomes of `solve_secondary_suppressions`: the
`AttributeError` raised when no solver backend could be created (`solver` is
`None`), the `KeyError` of a `self.cells[cid]` lookup on a NaN cell, and the
`RuntimeError` of line 480. -/
inductive SolveErr
  | attributeError
  | keyError (c : Cell)
  | runtimeError
  deriving DecidableEq

/-- Oracle for the external MILP backend: `unavailable` means neither SCIP
nor CBC could be created; the remaining constructors are the OR-Tools status
codes, carrying the set of variables at value 1 when a solution exists. -/
inductive SolverOutcome
  | unavailable
  | optimal (sol : List Cell)
  | feasible (sol : List Cell)
  | infeasible
  | unbounded
  | abnormal
  | notSolved
  deriving DecidableEq

/-- The first cell of a constraint that is missing from `self.cells` — the
key whose lookup at line 410 raises `KeyError`. -/
def firstMissing (t : Table) (cs : List Cell) : Option Cell :=
  cs.find? (fun c => !inCellsB t c)

/-- The `self.cells[cid]` lookups of the constraint loop (lines 406-442),
processed in constraint order; the first missing key raises. -/
def checkAll (t : Table) : List (List Cell) → Except SolveErr Unit
  | [] => Except.ok ()
  | cs :: rest =>
    match firstMissing t cs with
    | some c => Except.error (SolveErr.keyError c)
    | none => checkAll t rest

/-- The non-primary cells of a constraint that carry a decision variable
(`suppression_terms`, lines 417-420). -/
def availList (t : Table) (rules : ProtectionRules) (cs : List Cell) : List Cell :=
  cs.filter (fun c => inCellsB t c && !isPrimaryB t rules c)

/-- `primary_count` of a constraint (lines 408-412). -/
def constraintP (t : Table) (rules : ProtectionRules) (cs : List Cell) : Nat :=
  (cs.filter (fun c => isPrimaryB t rules c)).length

/-- `min_secondary` for one constraint (lines 427-433): `min(2, A)` for a
single primary, `min(P, max(1, A - 1))` for several. -/
def minSecondary (t : Table) (rules : ProtectionRules) (cs : List Cell) : Nat :=
  if constraintP t rules cs = 1 then min 2 (availList t rules cs).length
  else min (constraintP t rules cs) (max 1 ((availList t rules cs).length - 1))

/-- The inequality `sum of vars >= min_secondary` added for one constraint
(lines 415-437), returned as (candidate cells, required count); `none` when
no inequality is added for this constraint. -/
def reqOf (t : Table) (rules : ProtectionRules) (cs : List Cell) :
    Option (List Cell × Nat) :=
  if 0 < constraintP t rules cs then
    if availList t rules cs = [] then none
    else
      if 0 < minSecondary t rules cs ∧ minSecondary t rules cs ≤ (availList t rules cs).length
      then some (availList t rules cs, minSecondary t rules cs)
      else none
  else none

/-- The protection inequalities of the integer program, together with the
`KeyError` behaviour of the dict lookups that build them. -/
def buildRequirements (t : Table) (rules : ProtectionRules) :
    Except SolveErr (List (List Cell × Nat)) :=
  match checkAll t (constraintsList t) with
  | Except.error e => Except.error e
  | Except.ok _ => Except.ok ((constraintsList t).filterMap (reqOf t rules))

/-- The cells the solver reports at value 1: only non-primary cells of
`self.cells` carry a decision variable (lines 386-394 and 464-466), so the
oracle's assignment is restricted to them. -/
def realize (t : Table) (rules : ProtectionRules) (sol : List Cell) : Finset Cell :=
  (sol.filter (fun c => inCellsB t c && !isPrimaryB t rules c)).toFinset

/-- One constraint step of `_heuristic_secondary_suppression` (lines
497-518): when the constraint holds a primary cell, its two cheapest
available cells (stable sort by suppression cost) are added.  In every
reachable call every constraint cell is present in `self.cells`; missing
cells are filtered out here. -/
def heuristicStep (t : Table) (rules : ProtectionRules) (acc : Finset Cell)
    (cs : List Cell) : Finset Cell :=
  if 0 < constraintP t rules cs then
    let avail := cs.filter
      (fun c => inCellsB t c && !isPrimaryB t rules c && !(decide (c ∈ acc)))
    let sortedCells := stableSort (fun a b => decide (cellCost t a ≤ cellCost t b)) avail
    acc ∪ (sortedCells.take 2).toFinset
  else acc

/-- `_heuristic_secondary_suppression` (lines 484-521). -/
def heuristicSecondary (t : Table) (rules : ProtectionRules) : Finset Cell :=
  (constraintsList t).foldl (heuristicStep t rules) ∅

/-- `solve_secondary_suppressions` (lines 368-482) given the solver oracle.
With no backend the run crashes with `AttributeError` before any constraint
is processed; otherwise the constraint build runs (raising `KeyError` on NaN
cells); then OPTIMAL and FEASIBLE return the solver's assignment, INFEASIBLE
falls back to the heuristic, and the remaining statuses raise `RuntimeError`
(line 480). -/
def solveSecondary (t : Table) (rules : ProtectionRules) :
    SolverOutcome → Except SolveErr (Finset Cell)
  | SolverOutcome.unavailable => Except.error SolveErr.attributeError
  | SolverOutcome.optimal sol =>
    (buildRequirements t rules).map (fun _ => realize t rules sol)
  | SolverOutcome.feasible sol =>
    (buildRequirements t rules).map (fun _ => realize t rules sol)
  | SolverOutcome.infeasible =>
    (buildRequirements t rules).map (fun _ => heuristicSecondary t rules)
  | SolverOutcome.unbounded =>
    (buildRequirements t rules).bind (fun _ => Except.error SolveErr.runtimeError)
  | SolverOutcome.abnormal =>
    (buildRequirements t rules).bind (fun _ => Except.error SolveErr.runtimeError)
  | SolverOutcome.notSolved =>
    (buildRequirements t rules).bind (fun _ => Except.error SolveErr.runtimeError)

/-- `true` exactly when `solve_secondary_suppressions` runs the heuristic
fallback (lines 475-478): only the INFEASIBLE status does. -/
def usedHeuristic : SolverOutcome → Bool
  | SolverOutcome.infeasible => true
  | _ => false

/-- The statistics dict of `run_hypercube_suppression` (lines 596-611).  The
coordinate lists are modelled as sets (the source iterates Python sets). -/
structure Stats where
  total_cells : Nat
  primary_suppressions : Nat
  secondary_suppressions : Nat
  total_suppressions : Nat
  suppression_rate : ℚ
  method : String
  primary_cells : Finset Cell
  secondary_cells : Finset Cell
  pr_min_frequency : Int
  pr_dominance_n : Nat
  pr_dominance_k : ℚ
  deriving DecidableEq

/-- The keys of the statistics dict (lines 597-611). -/
def statisticsKeys : List String :=
  ["total_cells", "primary_suppressions", "secondary_suppressions",
   "total_suppressions", "suppression_rate", "method", "primary_cells",
   "secondary_cells", "protection_rules"]

/-- Step 5 of `run_hypercube_suppression`: the statistics are computed from
the table shape, the rules and the two suppression sets alone. -/
def compileStatistics (t : Table) (rules : ProtectionRules)
    (primary secondary : Finset Cell) : Stats :=
  { total_cells := t.rows * t.totalCols
    primary_suppressions := primary.card
    secondary_suppressions := secondary.card
    total_suppressions := primary.card + secondary.card
    suppression_rate := ((primary.card : ℚ) + secondary.card) / ((t.rows : ℚ) * t.totalCols)
    method := "hypercube"
    primary_cells := primary
    secondary_cells := secondary
    pr_min_frequency := rules.min_frequency
    pr_dominance_n := rules.dominance_n
    pr_dominance_k := rules.dominance_k }

/-- `run_hypercube_suppression` (lines 553-616): primary pass, constraint
build, secondary solve, statistics. -/
def runHypercube (t : Table) (rules : ProtectionRules) (o : SolverOutcome) :
    Except SolveErr Stats :=
  (solveSecondary t rules o).map
    (fun sec => compileStatistics t rules (primaryFinset t rules) sec)

/-- The protection-adequacy value of spec section 4.4, as a function of the
primary count `P` and the available-cell count `A` of one constraint. -/
def specAdequacy (P A : Nat) : Nat :=
  if P = 1 then min 2 A else min P (max 1 (A - 1))

/-- A secondary set the optimizer can accept: only non-primary cells of
`self.cells` are chosen and every inequality the code added is satisfied. -/
def ipFeasible (t : Table) (rules : ProtectionRules) (S : Finset Cell) : Prop :=
  (∀ c ∈ S, inCellsB t c = true ∧ isPrimaryB t rules c = false) ∧
  ∀ req ∈ (constraintsList t).filterMap (reqOf t rules),
    req.2 ≤ (S.filter (fun c => c ∈ req.1)).card

end HC

instance {ε α : Type} [DecidableEq ε] [DecidableEq α] : DecidableEq (Except ε α) :=
  fun x y =>
    match x, y with
    | Except.ok a, Except.ok b =>
      if h : a = b then isTrue (by rw [h]) else isFalse (by simp [h])
    | Except.error e, Except.error f =>
      if h : e = f then isTrue (by rw [h]) else isFalse (by simp [h])
    | Except.ok _, Except.error _ => isFalse (by simp)
    | Except.error _, Except.ok _ => isFalse (by simp)

instance (t : HC.Table) (rules : HC.ProtectionRules) (S : Finset HC.Cell) :
    Decidable (HC.ipFeasible t rules S) := by
  unfold HC.ipFeasible
  infer_instance

instance (v : ℚ) (d : PS.Draw) : Decidable (PS.drawValid v d) := by
  unfold PS.drawValid
  infer_instance

/-- The default hypercube protection rules (3, 1, 80, 10, 0.1). -/
def hcRules : HC.ProtectionRules := ⟨3, 1, 80, 10, 1/10⟩

/-- A 2x1 table of values 1 and 2: both cells violate the frequency rule, so
its column constraint has two primaries and no available cell. -/
def tblTwo : HC.Table :=
  { rows := 2, totalCols := 1, numericCols := [0]
    entry := fun i j =>
      if i = 0 ∧ j = 0 then some 1 else if i = 1 ∧ j = 0 then some 2 else none }

/-- A 1x1 table with the single value 5: no primary suppressions. -/
def tblOne : HC.Table :=
  { rows := 1, totalCols := 1, numericCols := [0]
    entry := fun i j => if i = 0 ∧ j = 0 then some 5 else none }

/-- A 1x3 table [1, 5, 7]: one primary cell (value 1) and two available
companions in its row constraint. -/
def tblThree : HC.Table :=
  { rows := 1, totalCols := 3, numericCols := [0, 1, 2]
    entry := fun i j =>
      if i = 0 ∧ j = 0 then some 1
      else if i = 0 ∧ j = 1 then some 5
      else if i = 0 ∧ j = 2 then some 7 else none }

/-- A feasible secondary set for `tblThree`. -/
def secThree : Finset HC.Cell := {(0, 1), (0, 2)}

/-- A 1x2 table whose second numeric cell is NaN. -/
def tblNaN : HC.Table :=
  { rows := 1, totalCols := 2, numericCols := [0, 1]
    entry := fun i j => if i = 0 ∧ j = 0 then some 4 else none }

/-- The default primary-suppression rules (3, 1, 80, 10). -/
def psRules : PS.ProtectionRules := ⟨3, 1, 80, 10⟩

/-- Dominance rules with n = 3, for the negative-total counterexample. -/
def psRulesN3 : PS.ProtectionRules := ⟨3, 3, 80, 10⟩

/-- Threshold rules with `min_frequency = 0` (a valid, non-negative
configuration). -/
def psRulesF0 : PS.ProtectionRules := ⟨0, 1, 80, 10⟩

/-- A draw stream producing one contributor with raw sample 1. -/
def drawsOne : Nat → PS.Draw := fun _ => ⟨1, [1]⟩

/-- A draw stream producing three contributors with equal raw samples. -/
def drawsThree : Nat → PS.Draw := fun _ => ⟨3, [1, 1, 1]⟩

section Proofs

attribute [local semireducible] Rat.mul Rat.inv Rat.add Rat.sub

/-- Elements of a stable insertion are the inserted element or old elements. -/
theorem mem_of_mem_insertSorted {α : Type} (le : α → α → Bool) (x y : α) (l : List α)
    (h : x ∈ insertSorted le y l) : x = y ∨ x ∈ l := by
  induction l with
  | nil =>
    simp [insertSorted] at h
    exact Or.inl h
  | cons z zs ih =>
    rw [insertSorted] at h
    split at h
    · simp only [List.mem_cons] at h
      rcases h with h | h | h
      · exact Or.inl h
      · exact Or.inr (by simp [h])
      · exact Or.inr (List.mem_cons_of_mem _ h)
    · simp only [List.mem_cons] at h
      rcases h with h | h
      · exact Or.inr (by simp [h])
      · rcases ih h with h2 | h2
        · exact Or.inl h2
        · exact Or.inr (List.mem_cons_of_mem _ h2)

/-- Elements of the sorting fold come from the accumulator or the input. -/
theorem mem_of_mem_foldl_insertSorted {α : Type} (le : α → α → Bool) :
    ∀ (l acc : List α) (x : α),
      x ∈ l.foldl (fun a y => insertSorted le y a) acc → x ∈ acc ∨ x ∈ l := by
  intro l
  induction l with
  | nil => intro acc x h; exact Or.inl h
  | cons z zs ih =>
    intro acc x h
    rcases ih (insertSorted le z acc) x h with h1 | h1
    · rcases mem_of_mem_insertSorted le x z acc h1 with h2 | h2
      · exact Or.inr (by simp [h2])
      · exact Or.inl h2
    · exact Or.inr (List.mem_cons_of_mem _ h1)

/-- The stable sort produces no new elements. -/
theorem mem_of_mem_stableSort {α : Type} (le : α → α → Bool) (l : List α) (x : α)
    (h : x ∈ stableSort le l) : x ∈ l := by
  rw [stableSort] at h
  rcases mem_of_mem_foldl_insertSorted le l [] x h with h1 | h1
  · simp at h1
  · exact h1

/-- If some constraint of the list has a cell missing from `self.cells`, the
lookup pass ends in a `KeyError`. -/
theorem checkAll_error_of_missing (t : HC.Table) :
    ∀ (l : List (List HC.Cell)),
      (∃ cs ∈ l, (HC.firstMissing t cs).isSome) →
      ∃ c, HC.checkAll t l = Except.error (HC.SolveErr.keyError c) := by
  intro l
  induction l with
  | nil => rintro ⟨cs, h, _⟩; simp at h
  | cons y ys ih =>
    rintro ⟨cs, hmem, hsome⟩
    cases hy : HC.firstMissing t y with
    | some c =>
      refine ⟨c, ?_⟩
      rw [HC.checkAll, hy]
    | none =>
      have hstep : HC.checkAll t (y :: ys) = HC.checkAll t ys := by
        rw [HC.checkAll, hy]
      rw [hstep]
      rcases List.mem_cons.mp hmem with h | h
      · subst h
        rw [hy] at hsome
        simp at hsome
      · exact ih ⟨cs, h, hsome⟩

/-- Cells added by the heuristic fold are never primary-suppressed. -/
theorem heuristic_fold_not_primary (t : HC.Table) (rules : HC.ProtectionRules) :
    ∀ (l : List (List HC.Cell)) (acc : Finset HC.Cell),
      (∀ c ∈ acc, HC.isPrimaryB t rules c = false) →
      ∀ c ∈ l.foldl (HC.heuristicStep t rules) acc, HC.isPrimaryB t rules c = false := by
  intro l
  induction l with
  | nil => intro acc hacc c hc; exact hacc c hc
  | cons cs rest ih =>
    intro acc hacc c hc
    refine ih (HC.heuristicStep t rules acc cs) ?_ c hc
    intro d hd
    rw [HC.heuristicStep] at hd
    split at hd
    · rcases Finset.mem_union.mp hd with h | h
      · exact hacc d h
      · have h2 := List.mem_toFinset.mp h
        have h3 := List.mem_of_mem_take h2
        have h4 := mem_of_mem_stableSort _ _ _ h3
        have h5 := (List.mem_filter.mp h4).2
        simp only [Bool.and_eq_true, Bool.not_eq_true'] at h5
        exact h5.1.2
    · exact hacc d hd

/-- Every set `solve_secondary_suppressions` can return consists of
non-primary cells only, on the optimizer path and on the heuristic path. -/
theorem solveSecondary_ok_not_primary (t : HC.Table) (rules : HC.ProtectionRules)
    (o : HC.SolverOutcome) (S : Finset HC.Cell)
    (h : HC.solveSecondary t rules o = Except.ok S) :
    ∀ c ∈ S, HC.isPrimaryB t rules c = false := by
  cases o with
  | unavailable => simp [HC.solveSecondary] at h
  | optimal sol =>
    rw [HC.solveSecondary] at h
    cases hb : HC.buildRequirements t rules with
    | error e => rw [hb] at h; simp [Except.map] at h
    | ok reqs =>
      rw [hb] at h
      simp only [Except.map] at h
      have hS : HC.realize t rules sol = S := by
        cases h; rfl
      subst hS
      intro c hc
      have h2 := (List.mem_filter.mp (List.mem_toFinset.mp hc)).2
      simp only [Bool.and_eq_true, Bool.not_eq_true'] at h2
      exact h2.2
  | feasible sol =>
    rw [HC.solveSecondary] at h
    cases hb : HC.buildRequirements t rules with
    | error e => rw [hb] at h; simp [Except.map] at h
    | ok reqs =>
      rw [hb] at h
      simp only [Except.map] at h
      have hS : HC.realize t rules sol = S := by
        cases h; rfl
      subst hS
      intro c hc
      have h2 := (List.mem_filter.mp (List.mem_toFinset.mp hc)).2
      simp only [Bool.and_eq_true, Bool.not_eq_true'] at h2
      exact h2.2
  | infeasible =>
    rw [HC.solveSecondary] at h
    cases hb : HC.buildRequirements t rules with
    | error e => rw [hb] at h; simp [Except.map] at h
    | ok reqs =>
      rw [hb] at h
      simp only [Except.map] at h
      have hS : HC.heuristicSecondary t rules = S := by
        cases h; rfl
      subst hS
      exact heuristic_fold_not_primary t rules _ ∅ (by simp)
  | unbounded =>
    rw [HC.solveSecondary] at h
    cases hb : HC.buildRequirements t rules with
    | error e => rw [hb] at h; simp [Except.bind] at h
    | ok reqs => rw [hb] at h; simp [Except.bind] at h
  | abnormal =>
    rw [HC.solveSecondary] at h
    cases hb : HC.buildRequirements t rules with
    | error e => rw [hb] at h; simp [Except.bind] at h
    | ok reqs => rw [hb] at h; simp [Except.bind] at h
  | notSolved =>
    rw [HC.solveSecondary] at h
    cases hb : HC.buildRequirements t rules with
    | error e => rw [hb] at h; simp [Except.bind] at h
    | ok reqs => rw [hb] at h; simp [Except.bind] at h

/-- The code's `min_secondary` agrees with the spec's adequacy value and an
inequality is added whenever a constraint has a primary cell and at least one
available cell. -/
theorem reqOf_eq_of_pos (t : HC.Table) (rules : HC.ProtectionRules) (cs : List HC.Cell)
    (hP : 1 ≤ HC.constraintP t rules cs) (hA : 1 ≤ (HC.availList t rules cs).length) :
    HC.reqOf t rules cs =
      some (HC.availList t rules cs,
        HC.specAdequacy (HC.constraintP t rules cs) (HC.availList t rules cs).length) := by
  have hspec : HC.minSecondary t rules cs =
      HC.specAdequacy (HC.constraintP t rules cs) (HC.availList t rules cs).length := rfl
  have hne : ¬ HC.availList t rules cs = [] := by
    intro h
    rw [h] at hA
    simp at hA
  have hm : 0 < HC.minSecondary t rules cs ∧
      HC.minSecondary t rules cs ≤ (HC.availList t rules cs).length := by
    rw [HC.minSecondary]
    split
    · omega
    · omega
  rw [HC.reqOf, if_pos (by omega), if_neg hne, if_pos hm, hspec]

/-- C9: every secondary-suppression set `solve_secondary_suppressions` returns
is disjoint from the primary-suppression set: the optimizer creates decision
variables only for non-primary cells, and the heuristic filters its candidate
cells to non-primary ones, so no cell is ever both primary- and
secondary-suppressed. -/
theorem secondary_disjoint_from_primary (t : HC.Table) (rules : HC.ProtectionRules)
    (o : HC.SolverOutcome) (S : Finset HC.Cell)
    (h : HC.solveSecondary t rules o = Except.ok S) :
    Disjoint S (HC.primaryFinset t rules) := by
  rw [Finset.disjoint_left]
  intro c hc hcp
  have h1 := solveSecondary_ok_not_primary t rules o S h c hc
  have h2 := (Finset.mem_filter.mp hcp).2
  rw [h1] at h2
  exact Bool.false_ne_true h2

/-- Witness for C9 on the concrete table [1, 5, 7]. -/
theorem secondary_disjoint_witness :
    HC.solveSecondary tblThree hcRules (HC.SolverOutcome.optimal [(0, 1), (0, 2)]) =
      Except.ok secThree ∧
    Disjoint secThree (HC.primaryFinset tblThree hcRules) :=
  ⟨by decide, secondary_disjoint_from_primary tblThree hcRules
    (HC.SolverOutcome.optimal [(0, 1), (0, 2)]) secThree (by decide)⟩

/-- C10: if any numeric cell of the table is missing (NaN), the run raises a
`KeyError`: `build_constraint_graph` lists the NaN cell in its row constraint
while leaving it out of `self.cells`, and `solve_secondary_suppressions` looks
every constraint cell up in `self.cells` unconditionally.  (The solver must
exist at all; with no backend the earlier `AttributeError` fires instead.) -/
theorem nan_cell_raises_keyerror (t : HC.Table) (rules : HC.ProtectionRules)
    (o : HC.SolverOutcome) (i j : Nat)
    (hi : i < t.rows) (hj : j ∈ t.numericCols) (hnan : t.entry i j = none)
    (ho : o ≠ HC.SolverOutcome.unavailable) :
    ∃ c, HC.runHypercube t rules o = Except.error (HC.SolveErr.keyError c) := by
  have hmem : HC.rowConstraintCells t i ∈ HC.constraintsList t := by
    apply List.mem_append_left
    exact List.mem_map.mpr ⟨i, List.mem_range.mpr hi, rfl⟩
  have hsome : (HC.firstMissing t (HC.rowConstraintCells t i)).isSome := by
    rw [HC.firstMissing, List.find?_isSome]
    refine ⟨(i, j), ?_, ?_⟩
    · exact List.mem_map.mpr ⟨j, hj, rfl⟩
    · simp [HC.inCellsB, hnan]
  obtain ⟨c, hc⟩ := checkAll_error_of_missing t _ ⟨_, hmem, hsome⟩
  have hbuild : HC.buildRequirements t rules = Except.error (HC.SolveErr.keyError c) := by
    rw [HC.buildRequirements, hc]
  refine ⟨c, ?_⟩
  cases o with
  | unavailable => exact absurd rfl ho
  | optimal sol => rw [HC.runHypercube, HC.solveSecondary, hbuild]; rfl
  | feasible sol => rw [HC.runHypercube, HC.solveSecondary, hbuild]; rfl
  | infeasible => rw [HC.runHypercube, HC.solveSecondary, hbuild]; rfl
  | unbounded => rw [HC.runHypercube, HC.solveSecondary, hbuild]; rfl
  | abnormal => rw [HC.runHypercube, HC.solveSecondary, hbuild]; rfl
  | notSolved => rw [HC.runHypercube, HC.solveSecondary, hbuild]; rfl

/-- Witness for C10 on a concrete 1x2 table whose second cell is NaN. -/
theorem nan_cell_raises_keyerror_witness :
    ∃ c, HC.runHypercube tblNaN hcRules (HC.SolverOutcome.optimal []) =
      Except.error (HC.SolveErr.keyError c) :=
  nan_cell_raises_keyerror tblNaN hcRules (HC.SolverOutcome.optimal []) 0 1
    (by decide) (by decide) (by decide) (by decide)

/-- C1 (amended): the status dispatch of `solve_secondary_suppressions` is not
uniform across failures: INFEASIBLE alone falls back to the greedy heuristic;
UNBOUNDED, ABNORMAL and NOT_SOLVED raise `RuntimeError`; and with no solver
backend at all the run dies with `AttributeError` on the `None` solver. -/
theorem solver_failure_dispatch (t : HC.Table) (rules : HC.ProtectionRules)
    (reqs : List (List HC.Cell × Nat))
    (h : HC.buildRequirements t rules = Except.ok reqs) :
    HC.solveSecondary t rules HC.SolverOutcome.infeasible =
      Except.ok (HC.heuristicSecondary t rules) ∧
    HC.solveSecondary t rules HC.SolverOutcome.unbounded =
      Except.error HC.SolveErr.runtimeError ∧
    HC.solveSecondary t rules HC.SolverOutcome.abnormal =
      Except.error HC.SolveErr.runtimeError ∧
    HC.solveSecondary t rules HC.SolverOutcome.notSolved =
      Except.error HC.SolveErr.runtimeError ∧
    HC.solveSecondary t rules HC.SolverOutcome.unavailable =
      Except.error HC.SolveErr.attributeError := by
  refine ⟨?_, ?_, ?_, ?_, rfl⟩ <;> rw [HC.solveSecondary, h] <;> rfl

/-- Witness for C1 on the concrete table with a single safe cell. -/
theorem solver_failure_dispatch_witness :
    HC.buildRequirements tblOne hcRules = Except.ok [] ∧
    HC.solveSecondary tblOne hcRules HC.SolverOutcome.infeasible =
      Except.ok (HC.heuristicSecondary tblOne hcRules) ∧
    HC.solveSecondary tblOne hcRules HC.SolverOutcome.unbounded =
      Except.error HC.SolveErr.runtimeError :=
  ⟨by decide, (solver_failure_dispatch tblOne hcRules [] (by decide)).1,
    (solver_failure_dispatch tblOne hcRules [] (by decide)).2.1⟩

/-- Counterexample to C1 as stated: on a table whose constraints were built
without error, the UNBOUNDED outcome does not fall back to the heuristic but
raises a fatal `RuntimeError`. -/
theorem solver_failure_unbounded_cex :
    HC.solveSecondary tblTwo hcRules HC.SolverOutcome.unbounded =
      Except.error HC.SolveErr.runtimeError := by
  decide

/-- C2 (amended): any secondary set that satisfies the inequalities the
optimizer imposes contains, for every additive constraint with `P >= 1`
primary cells and `A >= 1` available cells, at least `min(2, A)` cells when
`P = 1` and at least `min(P, max(1, A - 1))` cells when `P >= 2` — the
adequacy value of spec section 4.4. -/
theorem adequacy_of_feasible (t : HC.Table) (rules : HC.ProtectionRules)
    (sol : List HC.Cell) (S : Finset HC.Cell)
    (hok : HC.solveSecondary t rules (HC.SolverOutcome.optimal sol) = Except.ok S)
    (hfeas : HC.ipFeasible t rules S) :
    ∀ cs ∈ HC.constraintsList t, 1 ≤ HC.constraintP t rules cs →
      1 ≤ (HC.availList t rules cs).length →
      HC.specAdequacy (HC.constraintP t rules cs) (HC.availList t rules cs).length ≤
        (S.filter (fun c => c ∈ cs)).card := by
  intro cs hmem hP hA
  have hreq := reqOf_eq_of_pos t rules cs hP hA
  have hmem2 : (HC.availList t rules cs,
      HC.specAdequacy (HC.constraintP t rules cs) (HC.availList t rules cs).length) ∈
      (HC.constraintsList t).filterMap (HC.reqOf t rules) :=
    List.mem_filterMap.mpr ⟨cs, hmem, hreq⟩
  have hb := hfeas.2 _ hmem2
  refine le_trans hb (Finset.card_le_card ?_)
  intro c hc
  have hc2 := Finset.mem_filter.mp hc
  exact Finset.mem_filter.mpr ⟨hc2.1, List.mem_of_mem_filter hc2.2⟩

/-- Witness for C2 on the table [1, 5, 7]: its row constraint has one primary
and two available cells, and the feasible set {(0,1), (0,2)} meets the
adequacy bound min(2, 2) = 2. -/
theorem adequacy_of_feasible_witness :
    HC.ipFeasible tblThree hcRules secThree ∧
    HC.specAdequacy 1 2 ≤
      (secThree.filter (fun c => c ∈ HC.rowConstraintCells tblThree 0)).card := by
  constructor
  · decide
  · have h := adequacy_of_feasible tblThree hcRules [(0, 1), (0, 2)] secThree
      (by decide) (by decide) (HC.rowConstraintCells tblThree 0)
      (by decide) (by decide) (by decide)
    have e1 : HC.constraintP tblThree hcRules (HC.rowConstraintCells tblThree 0) = 1 := by
      decide
    have e2 : (HC.availList tblThree hcRules (HC.rowConstraintCells tblThree 0)).length = 2 := by
      decide
    rw [e1, e2] at h
    exact h

/-- Counterexample to C2 as stated: on the 2x1 table [1, 2] both cells are
primary, so the column constraint has P = 2 and A = 0; the claimed bound is
min(2, max(1, -1)) = 1, yet the pipeline (vacuously optimal, no variables)
returns the empty secondary set, which contains 0 cells of that constraint. -/
theorem adequacy_claim_cex :
    HC.solveSecondary tblTwo hcRules (HC.SolverOutcome.optimal []) =
      Except.ok (∅ : Finset HC.Cell) ∧
    HC.colConstraintCells tblTwo 0 ∈ HC.constraintsList tblTwo ∧
    HC.constraintP tblTwo hcRules (HC.colConstraintCells tblTwo 0) = 2 ∧
    (HC.availList tblTwo hcRules (HC.colConstraintCells tblTwo 0)).length = 0 ∧
    HC.specAdequacy 2 0 = 1 ∧
    ((∅ : Finset HC.Cell).filter
      (fun c => c ∈ HC.colConstraintCells tblTwo 0)).card = 0 := by
  refine ⟨by decide, by decide, by decide, by decide, by decide, by decide⟩

/-- C3 (amended): the statistics of `run_hypercube_suppression` are a function
of the table, the rules and the secondary set alone — the solving strategy is
not recorded; in particular no `strategy` key exists among the statistics
keys, so two runs whose optimizer and heuristic produce the same set have
identical statistics. -/
theorem statistics_determined_by_sets (t : HC.Table) (rules : HC.ProtectionRules)
    (o1 o2 : HC.SolverOutcome) (S1 S2 : Finset HC.Cell)
    (h1 : HC.solveSecondary t rules o1 = Except.ok S1)
    (h2 : HC.solveSecondary t rules o2 = Except.ok S2)
    (hS : S1 = S2) :
    HC.runHypercube t rules o1 = HC.runHypercube t rules o2 ∧
    "strategy" ∉ HC.statisticsKeys := by
  constructor
  · rw [HC.runHypercube, HC.runHypercube, h1, h2, hS]
  · decide

/-- Witness for C3: on the 1x1 table the heuristic run and an optimal run
yield the same statistics. -/
theorem statistics_determined_witness :
    HC.runHypercube tblOne hcRules HC.SolverOutcome.infeasible =
      HC.runHypercube tblOne hcRules (HC.SolverOutcome.optimal []) :=
  (statistics_determined_by_sets tblOne hcRules HC.SolverOutcome.infeasible
    (HC.SolverOutcome.optimal []) ∅ ∅ (by decide) (by decide) rfl).1

/-- Counterexample to C3 as stated: the INFEASIBLE run uses the heuristic and
the OPTIMAL run uses the optimizer, yet the returned statistics are equal, and
the statistics dict has no `strategy` key at all — the strategy is not
recorded. -/
theorem strategy_not_recorded_cex :
    HC.usedHeuristic HC.SolverOutcome.infeasible ≠
      HC.usedHeuristic (HC.SolverOutcome.optimal []) ∧
    HC.runHypercube tblOne hcRules HC.SolverOutcome.infeasible =
      HC.runHypercube tblOne hcRules (HC.SolverOutcome.optimal []) ∧
    "strategy" ∉ HC.statisticsKeys := by
  refine ⟨by decide, by decide, by decide⟩

/-- C4: per-cell rule evaluation runs threshold, then dominance, then
p-percent, stops at the first violation, and records exactly one verdict; a
cell with one contributor under `minContributors = 3` gets the
`FewContributors` verdict and never a dominance verdict. -/
theorem rule_priority_order (rules : PS.ProtectionRules) (contributors : List String)
    (vals : List ℚ) (v : ℚ) :
    (∀ r, PS.check_threshold_rule rules contributors = some r →
      PS.evaluateCell rules contributors vals v = some r) ∧
    (PS.check_threshold_rule rules contributors = none →
      ∀ r, PS.check_dominance_rule rules v vals = some r →
        PS.evaluateCell rules contributors vals v = some r) ∧
    (PS.check_threshold_rule rules contributors = none →
      PS.check_dominance_rule rules v vals = none →
        PS.evaluateCell rules contributors vals v = PS.check_p_percent_rule rules v vals) ∧
    (contributors.length = 1 → rules.min_frequency = 3 →
      PS.evaluateCell rules contributors vals v = some ⟨true, PS.Flag.fewContributors⟩) ∧
    (∀ res, contributors.length = 1 → rules.min_frequency = 3 →
      PS.evaluateCell rules contributors vals v = some res →
      res.flag ≠ PS.Flag.domOne ∧ res.flag ≠ PS.Flag.domTwo ∧
        res.flag ≠ PS.Flag.domGeneral) := by
  have thr : ∀ (hl : contributors.length = 1) (hm : rules.min_frequency = 3),
      PS.check_threshold_rule rules contributors = some ⟨true, PS.Flag.fewContributors⟩ := by
    intro hl hm
    rw [PS.check_threshold_rule, hl, hm]
    norm_num
  refine ⟨?_, ?_, ?_, ?_, ?_⟩
  · intro r h
    rw [PS.evaluateCell, h]
  · intro h0 r h
    rw [PS.evaluateCell, h0, h]
  · intro h0 h1
    rw [PS.evaluateCell, h0, h1]
  · intro hl hm
    rw [PS.evaluateCell, thr hl hm]
  · intro res hl hm heq
    have h4 : PS.evaluateCell rules contributors vals v =
        some ⟨true, PS.Flag.fewContributors⟩ := by
      rw [PS.evaluateCell, thr hl hm]
    rw [h4] at heq
    have hres : res = ⟨true, PS.Flag.fewContributors⟩ := (Option.some.inj heq).symm
    subst hres
    exact ⟨by decide, by decide, by decide⟩

/-- Witness for C4 at a concrete single-contributor cell. -/
theorem rule_priority_order_witness :
    PS.evaluateCell psRules ["contributor_0"] [5] 5 =
      some ⟨true, PS.Flag.fewContributors⟩ :=
  (rule_priority_order psRules ["contributor_0"] [5] 5).2.2.2.1 (by decide) (by decide)

/-- C6 (amended): the dominance check is skipped only for an empty
contributor list or a zero total (not for negative totals); it violates
exactly when the top-n share strictly exceeds k, with the verdict flavour
determined by n, and the spec example [90, 5, 5] at n = 1, k = 80 yields
`DominanceOne`. -/
theorem dominance_rule_semantics (rules : PS.ProtectionRules) (v : ℚ) (vals : List ℚ) :
    ((PS.check_dominance_rule rules v vals).isSome = true ↔
      (vals ≠ [] ∧ v ≠ 0 ∧ rules.dominance_k < PS.domTopShare rules.dominance_n v vals)) ∧
    (∀ res, PS.check_dominance_rule rules v vals = some res →
      res = ⟨true, PS.domFlagOf rules.dominance_n⟩) ∧
    PS.check_dominance_rule psRules 100 [90, 5, 5] = some ⟨true, PS.Flag.domOne⟩ := by
  refine ⟨?_, ?_, by decide⟩
  · simp only [PS.check_dominance_rule, PS.domTopShare]
    by_cases hg : vals = [] ∨ v = 0
    · rw [if_pos hg]
      simp only [Option.isSome_none, Bool.false_eq_true, false_iff]
      rintro ⟨h1, h2, _⟩
      rcases hg with hg | hg
      · exact h1 hg
      · exact h2 hg
    · rw [if_neg hg]
      push_neg at hg
      by_cases hk : rules.dominance_k <
          ((PS.sortDesc vals).take rules.dominance_n).sum / v * 100
      · rw [if_pos hk]
        simp only [Option.isSome_some, true_iff]
        exact ⟨hg.1, hg.2, hk⟩
      · rw [if_neg hk]
        simp only [Option.isSome_none, Bool.false_eq_true, false_iff]
        rintro ⟨_, _, h3⟩
        exact hk h3
  · intro res h
    simp only [PS.check_dominance_rule] at h
    split at h
    · exact absurd h (by simp)
    · split at h
      · exact (Option.some.inj h).symm
      · exact absurd h (by simp)

/-- Witness for C6: the spec example satisfies the violation condition. -/
theorem dominance_rule_semantics_witness :
    ([90, 5, 5] : List ℚ) ≠ [] ∧ (100 : ℚ) ≠ 0 ∧
      psRules.dominance_k < PS.domTopShare psRules.dominance_n 100 [90, 5, 5] :=
  (dominance_rule_semantics psRules 100 [90, 5, 5]).1.mp (by decide)

/-- Counterexample to C6 as stated: with the valid configuration n = 3,
k = 80 and the strictly negative total -100, the dominance check is evaluated
and violates (flag `DominanceGeneral`), so the rule is not evaluated only for
strictly positive totals. -/
theorem dominance_negative_total_cex :
    PS.check_dominance_rule psRulesN3 (-100) [-90, -5, -5] =
      some ⟨true, PS.Flag.domGeneral⟩ ∧
    ¬ ((0 : ℚ) < -100) ∧
    (0 : ℚ) < psRulesN3.dominance_k ∧ psRulesN3.dominance_k ≤ 100 ∧
    1 ≤ psRulesN3.dominance_n := by
  refine ⟨by decide, by decide, by decide, by decide, by decide⟩

/-- C7 (amended): the p-percent check applies only when there are at least
two contributors, the total is nonzero, and the second-largest value is
positive; it then violates exactly when the relative error of the estimate
`total - largest - sum(others)` is at most p percent; the spec example
[60, 39, 1] at p = 10 yields `PPercentRisk`. -/
theorem p_percent_rule_semantics (rules : PS.ProtectionRules) (v : ℚ) (vals : List ℚ) :
    ((PS.check_p_percent_rule rules v vals).isSome = true ↔
      (2 ≤ vals.length ∧ v ≠ 0 ∧ 0 < PS.secondLargest vals ∧
        PS.relError v vals ≤ rules.p_percent)) ∧
    (∀ res, PS.check_p_percent_rule rules v vals = some res →
      res = ⟨true, PS.Flag.pPercent⟩) ∧
    PS.check_p_percent_rule psRules 100 [60, 39, 1] = some ⟨true, PS.Flag.pPercent⟩ := by
  refine ⟨?_, ?_, by decide⟩
  · simp only [PS.check_p_percent_rule, PS.relError, PS.ppEstimate, PS.secondLargest]
    by_cases hg : vals = [] ∨ vals.length < 2 ∨ v = 0
    · rw [if_pos hg]
      simp only [Option.isSome_none, Bool.false_eq_true, false_iff]
      rintro ⟨h1, h2, _⟩
      rcases hg with hg | hg | hg
      · rw [hg] at h1; simp at h1
      · omega
      · exact h2 hg
    · rw [if_neg hg]
      push_neg at hg
      split
      next hs =>
        split
        next he =>
          simp only [Option.isSome_some, true_iff]
          exact ⟨by omega, hg.2.2, hs, he⟩
        next he =>
          simp only [Option.isSome_none, Bool.false_eq_true, false_iff]
          rintro ⟨_, _, _, h4⟩
          exact he h4
      next hs =>
        simp only [Option.isSome_none, Bool.false_eq_true, false_iff]
        rintro ⟨_, _, h3, _⟩
        exact hs h3
  · intro res h
    simp only [PS.check_p_percent_rule] at h
    split at h
    · exact absurd h (by simp)
    · split at h
      · split at h
        · exact (Option.some.inj h).symm
        · exact absurd h (by simp)
      · exact absurd h (by simp)

/-- Witness for C7: the spec example satisfies the violation condition. -/
theorem p_percent_rule_semantics_witness :
    2 ≤ ([60, 39, 1] : List ℚ).length ∧ (100 : ℚ) ≠ 0 ∧
      0 < PS.secondLargest [60, 39, 1] ∧
      PS.relError 100 [60, 39, 1] ≤ psRules.p_percent :=
  (p_percent_rule_semantics psRules 100 [60, 39, 1]).1.mp (by decide)

/-- Counterexample to C7 as stated: at total 0 with contributors [5, 3, -8]
there are at least two contributors, the second-largest (3) is positive, and
the relative error of the estimate is 0, at most p — yet the check returns no
violation, because the code additionally requires a nonzero total. -/
theorem p_percent_zero_total_cex :
    PS.check_p_percent_rule psRules 0 [5, 3, -8] = none ∧
    2 ≤ ([5, 3, -8] : List ℚ).length ∧
    0 < PS.secondLargest [5, 3, -8] ∧
    PS.relError 0 [5, 3, -8] ≤ psRules.p_percent := by
  refine ⟨by decide, by decide, by decide, by decide⟩

/-- C8 (amended): the threshold rule violates exactly when the contributor
count is strictly below `minContributors`, and a cell with zero contributors
violates whenever `minContributors >= 1` (with `minContributors = 0`, a valid
non-negative configuration, zero contributors passes). -/
theorem threshold_rule_semantics (rules : PS.ProtectionRules) (contributors : List String) :
    ((PS.check_threshold_rule rules contributors).isSome = true ↔
      (contributors.length : Int) < rules.min_frequency) ∧
    (∀ res, PS.check_threshold_rule rules contributors = some res →
      res = ⟨true, PS.Flag.fewContributors⟩) ∧
    (1 ≤ rules.min_frequency →
      (PS.check_threshold_rule rules ([] : List String)).isSome = true) := by
  refine ⟨?_, ?_, ?_⟩
  · rw [PS.check_threshold_rule]
    split <;> simp [*]
  · intro res h
    rw [PS.check_threshold_rule] at h
    split at h
    · exact (Option.some.inj h).symm
    · exact absurd h (by simp)
  · intro h
    rw [PS.check_threshold_rule]
    rw [if_pos (by simp only [List.length_nil, Nat.cast_zero]; omega)]
    rfl

/-- Witness for C8 under the default configuration. -/
theorem threshold_rule_semantics_witness :
    (PS.check_threshold_rule psRules ([] : List String)).isSome = true :=
  (threshold_rule_semantics psRules ([] : List String)).2.2 (by decide)

/-- Counterexample to C8 as stated: `min_frequency = 0` is a valid
(non-negative) configuration, and under it a cell with zero contributors does
not violate the threshold rule. -/
theorem threshold_min_zero_cex :
    (0 : Int) ≤ psRulesF0.min_frequency ∧
    PS.check_threshold_rule psRulesF0 ([] : List String) = none := by
  exact ⟨by decide, by decide⟩

/-- C5 (amended): the primary pass is deterministic in the table, the
configuration and the contributor draws it consumes — one draw per present,
nonzero cell; two runs agreeing on those draws produce identical rows, flags
and hence statistics.  (The counterexample shows that with different
admissible draws the results differ, so the pipeline is not a function of
table and configuration alone.) -/
theorem evalRows_depends_only_on_consumed_draws (rules : PS.ProtectionRules) :
    ∀ (col : List (Option ℚ)) (d1 d2 : Nat → PS.Draw) (k : Nat),
      (∀ m, m < PS.eligibleCount col → d1 (k + m) = d2 (k + m)) →
      PS.evalRows rules d1 col k = PS.evalRows rules d2 col k := by
  intro col
  induction col with
  | nil => intro d1 d2 k h; rfl
  | cons v? rest ih =>
    intro d1 d2 k h
    cases v? with
    | none =>
      have hle : PS.eligibleCount ((none : Option ℚ) :: rest) = PS.eligibleCount rest := by
        simp [PS.eligibleCount, List.countP_cons]
      simp only [PS.evalRows]
      rw [ih d1 d2 k (fun m hm => h m (by rw [hle]; exact hm))]
    | some v =>
      by_cases hv : v = 0
      · have hle : PS.eligibleCount (some v :: rest) = PS.eligibleCount rest := by
          simp [PS.eligibleCount, List.countP_cons, hv]
        simp only [PS.evalRows, if_pos hv]
        rw [ih d1 d2 k (fun m hm => h m (by rw [hle]; exact hm))]
      · have hle : PS.eligibleCount (some v :: rest) = PS.eligibleCount rest + 1 := by
          simp [PS.eligibleCount, List.countP_cons, hv]
        have h0 : d1 k = d2 k := by
          have hx := h 0 (by rw [hle]; omega)
          simpa using hx
        simp only [PS.evalRows, if_neg hv]
        rw [h0]
        have ih2 := ih d1 d2 (k + 1) (fun m hm => by
          have hmm := h (m + 1) (by rw [hle]; omega)
          have heq : k + (m + 1) = k + 1 + m := by omega
          rw [heq] at hmm
          exact hmm)
        rw [ih2]

/-- Witness for C5: on a one-cell table two streams that agree on the single
consumed draw give identical results even though they differ later. -/
theorem evalRows_consumed_witness :
    PS.evalRows psRules drawsOne [some 5] 0 =
      PS.evalRows psRules (fun n => if n = 0 then ⟨1, [1]⟩ else ⟨2, [1, 1]⟩) [some 5] 0 :=
  evalRows_depends_only_on_consumed_draws psRules [some 5] drawsOne
    (fun n => if n = 0 then ⟨1, [1]⟩ else ⟨2, [1, 1]⟩) 0
    (fun m hm => by
      have h1 : PS.eligibleCount [some (5 : ℚ)] = 1 := by decide
      rw [h1] at hm
      have h0 : m = 0 := by omega
      subst h0
      decide)

/-- Counterexample to C5 as stated: two admissible random draws for the same
cell value 5 under the same configuration give different verdicts (one
contributor triggers the threshold rule; three equal contributors trigger the
p-percent rule), so two runs of the pipeline need not produce identical flags
or statistics. -/
theorem pipeline_randomness_cex :
    PS.drawValid 5 (drawsOne 0) ∧ PS.drawValid 5 (drawsThree 0) ∧
    PS.evalRows psRules drawsOne [some 5] 0 = [(true, PS.Flag.fewContributors)] ∧
    PS.evalRows psRules drawsThree [some 5] 0 = [(true, PS.Flag.pPercent)] ∧
    PS.evalRows psRules drawsOne [some 5] 0 ≠ PS.evalRows psRules drawsThree [some 5] 0 := by
  refine ⟨by decide, by decide, by decide, by decide, by decide⟩

end Proofs
